import Mathlib

/-!
Verification of the flag-evaluation and Bayesian experiment engines of the
Flagship repository.  All definitions are shallow embeddings of the TypeScript
source: `src/lib/bucketing.ts` (murmur3 bucketing, targeting rules, variant
selection), the edge bucketing module (simpleHash variant), the flag evaluator
in `src/app/api/edge/flags/route.ts`, and the Bayesian A/B computation in
`src/lib/redis.ts`.  JavaScript numbers are modelled as rationals, strings as
Lean strings (encoded to UTF-8 / UTF-16 code-unit lists where the source hashes
them), and the `Math.random`-driven Monte Carlo draws as oracle streams.
-/

namespace Flagship

/-- A JavaScript value as it can appear in variant payloads and custom
properties: undefined, null, boolean, number or string. -/
inductive CVal where
  | vUndef : CVal
  | vNull : CVal
  | vBool : Bool → CVal
  | vNum : ℚ → CVal
  | vStr : String → CVal
deriving DecidableEq

/-- A targeting-rule value for a custom property: either a single expected
scalar or a list of acceptable values (source line 58: `Array.isArray`). -/
inductive RVal where
  | single : CVal → RVal
  | multi : List CVal → RVal
deriving DecidableEq

/-- UserAttributes from `src/types`: userId plus optional country, deviceType,
userAgent and an open customProperties mapping. -/
structure UserAttributes where
  userId : String
  country : Option String := none
  deviceType : Option String := none
  userAgent : Option String := none
  customProperties : Option (List (String × CVal)) := none
deriving DecidableEq

/-- TargetingRules: optional lists for country, deviceType, userAgent and an
optional customProperties mapping. -/
structure TargetingRules where
  country : Option (List String) := none
  deviceType : Option (List String) := none
  userAgent : Option (List String) := none
  customProperties : Option (List (String × RVal)) := none
deriving DecidableEq

/-- A flag variant: `{key, value, weight?}`. -/
structure Variant where
  key : String
  value : CVal
  weight : Option ℚ := none
deriving DecidableEq

/-- A flag as read by the evaluator: key, variants, rules, rolloutPct, salt,
isActive. -/
structure Flag where
  key : String
  variants : List Variant
  rules : TargetingRules
  rolloutPct : ℕ
  salt : String
  isActive : Bool
deriving DecidableEq

/-- The reason codes of FlagEvaluationResult. -/
inductive EvalReason where
  | flag_disabled : EvalReason
  | targeting_rules_not_met : EvalReason
  | not_in_rollout : EvalReason
  | flag_not_found : EvalReason
  | access_denied : EvalReason
  | evaluated : EvalReason
deriving DecidableEq

/-- FlagEvaluationResult as returned by evaluateFlag. -/
structure FlagEvaluationResult where
  flagKey : String
  variant : String
  value : CVal
  isActive : Bool
  reason : EvalReason
deriving DecidableEq

/-! ### Hash bucketer (murmur3 x86 hash32, `src/lib/bucketing.ts` lines 7-13) -/

/-- Reduction to the low 32 bits, the effect of JavaScript 32-bit coercions. -/
def mask32 (n : ℕ) : ℕ := n % 2 ^ 32

/-- 32-bit multiplication modulo 2^32 (the library's x86 multiply). -/
def mul32 (a b : ℕ) : ℕ := mask32 (a * b)

/-- 32-bit left rotation (the library's x86 rotl). -/
def rotl32 (x r : ℕ) : ℕ := mask32 ((x <<< r) ||| (x >>> (32 - r)))

/-- The murmur3 finalization mix. -/
def fmix32 (h0 : ℕ) : ℕ :=
  let h1 := h0 ^^^ (h0 >>> 16)
  let h2 := mul32 h1 0x85ebca6b
  let h3 := h2 ^^^ (h2 >>> 13)
  let h4 := mul32 h3 0xc2b2ae35
  h4 ^^^ (h4 >>> 16)

/-- The murmur3 body loop: consume 4-byte little-endian blocks, returning the
running hash and the remaining tail bytes. -/
def mmBody (h : ℕ) : List ℕ → ℕ × List ℕ
  | b0 :: b1 :: b2 :: b3 :: rest =>
      let k1 := b0 ||| (b1 <<< 8) ||| (b2 <<< 16) ||| (b3 <<< 24)
      let k2 := mul32 k1 0xcc9e2d51
      let k3 := rotl32 k2 15
      let k4 := mul32 k3 0x1b873593
      let h1 := h ^^^ k4
      let h2 := rotl32 h1 13
      let h3 := mask32 (mul32 h2 5 + 0xe6546b64)
      mmBody h3 rest
  | l => (h, l)

/-- The murmur3 tail handling for the remaining 0-3 bytes. -/
def mmTail (h : ℕ) (tail : List ℕ) : ℕ :=
  match tail with
  | [] => h
  | _ =>
    let k1 :=
      match tail with
      | [] => 0
      | [b0] => b0
      | [b0, b1] => b0 ||| (b1 <<< 8)
      | b0 :: b1 :: b2 :: _ => b0 ||| (b1 <<< 8) ||| (b2 <<< 16)
    let k2 := mul32 k1 0xcc9e2d51
    let k3 := rotl32 k2 15
    let k4 := mul32 k3 0x1b873593
    h ^^^ k4

/-- murmurhash3js-revisited `x86.hash32` over a byte list with seed 0, as
called from getBucket (`src/lib/bucketing.ts` line 11). -/
def hash32 (bytes : List ℕ) : ℕ :=
  let p := mmBody 0 bytes
  let h1 := mmTail p.1 p.2
  let h2 := h1 ^^^ mask32 bytes.length
  fmix32 h2

/-- UTF-8 encoding of one code point, the behaviour of `TextEncoder.encode`. -/
def utf8EncodeChar (c : ℕ) : List ℕ :=
  if c < 0x80 then [c]
  else if c < 0x800 then [0xC0 + c / 64, 0x80 + c % 64]
  else if c < 0x10000 then
    [0xE0 + c / 4096, 0x80 + (c / 64) % 64, 0x80 + c % 64]
  else
    [0xF0 + c / 262144, 0x80 + (c / 4096) % 64, 0x80 + (c / 64) % 64,
     0x80 + c % 64]

/-- UTF-8 encoding of a string as a byte list. -/
def utf8Encode (s : String) : List ℕ :=
  (s.data.map (fun ch => utf8EncodeChar ch.toNat)).flatten

/-- getBucket (`src/lib/bucketing.ts` lines 7-13): murmur3 x86 hash32 of the
UTF-8 bytes of `userKey ++ ":" ++ salt`, then `Math.abs(hash) % 100`.  The
library already returns an unsigned 32-bit value, so `Math.abs` is the
identity on it. -/
def getBucket (userKey salt : String) : ℕ :=
  hash32 (utf8Encode (userKey ++ ":" ++ salt)) % 100

/-! ### Edge hash bucketer (simpleHash, edge bucketing module lines 6-23) -/

/-- JavaScript ToInt32: wrap an integer into the signed 32-bit range. -/
def toInt32 (z : ℤ) : ℤ := (z + 2 ^ 31) % 2 ^ 32 - 2 ^ 31

/-- One iteration of simpleHash: `hash = ((hash << 5) - hash) + char` followed
by `hash = hash & hash` (the 32-bit coercion).  `hash << 5` itself wraps to a
signed 32-bit value; the subtraction and addition are exact in doubles. -/
def simpleHashStep (h : ℤ) (c : ℕ) : ℤ :=
  toInt32 (toInt32 (h * 32) - h + c)

/-- simpleHash over the UTF-16 code units of the string, with the final
`Math.abs`. -/
def simpleHash (codeUnits : List ℕ) : ℕ :=
  (codeUnits.foldl simpleHashStep 0).natAbs

/-- UTF-16 code units of one code point, the behaviour of `charCodeAt`. -/
def utf16EncodeChar (c : ℕ) : List ℕ :=
  if c < 0x10000 then [c]
  else [0xD800 + (c - 0x10000) / 0x400, 0xDC00 + (c - 0x10000) % 0x400]

/-- UTF-16 code-unit list of a string. -/
def utf16Encode (s : String) : List ℕ :=
  (s.data.map (fun ch => utf16EncodeChar ch.toNat)).flatten

/-- getBucket of the edge bucketing module (lines 19-23):
`simpleHash(userKey ++ ":" ++ salt) % 100`. -/
def getBucketEdge (userKey salt : String) : ℕ :=
  simpleHash (utf16Encode (userKey ++ ":" ++ salt)) % 100

/-! ### Targeting matcher (`src/lib/bucketing.ts` lines 18-69) -/

/-- The check `Object.keys(rules).length === 0` (line 23): a rule object with
no dimension present at all. -/
def rulesIsEmpty (rules : TargetingRules) : Bool :=
  rules.country.isNone && rules.deviceType.isNone &&
    rules.userAgent.isNone && rules.customProperties.isNone

/-- The country / deviceType dimension check (lines 28-39): passes when the
rule list is absent or empty; otherwise the attribute must be present (JS
truthy, so the empty string counts as absent) and contained in the list. -/
def checkDim (ruleVals : Option (List String)) (attr : Option String) : Bool :=
  match ruleVals with
  | none => true
  | some vals =>
    if vals.length > 0 then
      match attr with
      | some a => if a = "" then false else vals.contains a
      | none => false
    else true

/-- Whether the character list `pat` occurs at the start of `hay`. -/
def leadsWith : List Char → List Char → Bool
  | [], _ => true
  | _ :: _, [] => false
  | p :: ps, h :: hs => (p == h) && leadsWith ps hs

/-- JavaScript `hay.includes(pat)`: `pat` occurs as a contiguous run of
`hay`. -/
def strIncludes : List Char → List Char → Bool
  | [], pat => pat.isEmpty
  | c :: rest, pat => leadsWith pat (c :: rest) || strIncludes rest pat

/-- One userAgent pattern test (lines 46-48):
`attributes.userAgent.toLowerCase().includes(pattern.toLowerCase())`,
existentially over the patterns (`some`). -/
def uaMatches (pats : List String) (ua : String) : Bool :=
  pats.any (fun p => strIncludes ua.toLower.data p.toLower.data)

/-- The userAgent dimension check (lines 42-52): passes when the rule list is
absent or empty; otherwise the attribute must be present (truthy) and some
pattern must match case-insensitively as a substring. -/
def checkUserAgent (ruleVals : Option (List String)) (attr : Option String) :
    Bool :=
  match ruleVals with
  | none => true
  | some pats =>
    if pats.length > 0 then
      match attr with
      | some ua => if ua = "" then false else uaMatches pats ua
      | none => false
    else true

/-- `attributes.customProperties?.[key]` (line 57): undefined when the map is
absent or the key missing. -/
def lookupCustom (cp : Option (List (String × CVal))) (k : String) : CVal :=
  match cp with
  | none => CVal.vUndef
  | some l =>
    match l.lookup k with
    | some v => v
    | none => CVal.vUndef

/-- One custom-property entry check (lines 58-64): membership for list-typed
expectations, strict equality for scalars. -/
def checkCustomEntry (userVal : CVal) (expected : RVal) : Bool :=
  match expected with
  | RVal.multi vs => vs.contains userVal
  | RVal.single v => userVal == v

/-- matchesTargetingRules (`src/lib/bucketing.ts` lines 18-69): empty rule set
matches everyone, otherwise every present dimension must pass. -/
def matchesTargetingRules (attributes : UserAttributes)
    (rules : TargetingRules) : Bool :=
  if rulesIsEmpty rules then true
  else
    checkDim rules.country attributes.country &&
    checkDim rules.deviceType attributes.deviceType &&
    checkUserAgent rules.userAgent attributes.userAgent &&
    (match rules.customProperties with
     | none => true
     | some entries =>
       entries.all (fun e =>
         checkCustomEntry (lookupCustom attributes.customProperties e.1) e.2))

/-! ### Variant selector (`src/lib/bucketing.ts` lines 74-106) -/

/-- `totalWeight = variants.reduce((sum, v) => sum + (v.weight || 0), 0)`
(line 87). -/
def totalWeight (variants : List Variant) : ℚ :=
  variants.foldl (fun s v => s + v.weight.getD 0) 0

/-- The weighted walk (lines 94-101): accumulate weights and return the first
variant whose cumulative weight reaches the target (`target <= currentWeight`);
`none` when the loop falls through. -/
def weightedWalk (target : ℚ) : ℚ → List Variant → Option Variant
  | _, [] => none
  | cur, v :: rest =>
      let cw := cur + v.weight.getD 0
      if target ≤ cw then some v else weightedWalk target cw rest

/-- selectVariant (`src/lib/bucketing.ts` lines 74-106).  The thrown
`No variants available` error is modelled as `none`; every other path returns
`some`. -/
def selectVariant (variants : List Variant) (bucket : ℕ) : Option Variant :=
  if variants.length = 0 then none
  else if variants.length = 1 then variants[0]?
  else if variants.any (fun v => v.weight.isSome) then
    let tw := totalWeight variants
    if tw = 0 then variants[bucket % variants.length]?
    else
      match weightedWalk ((bucket : ℚ) / 100 * tw) 0 variants with
      | some v => some v
      | none => variants[bucket % variants.length]?
  else variants[bucket % variants.length]?

/-! ### Flag evaluator (`src/app/api/edge/flags/route.ts` lines 133-185) -/

/-- `flag.variants[0] || { key: 'control', value: false }` (lines 140, 152,
165): the head of the variant list, or the control default when empty. -/
def defaultVariant (variants : List Variant) : Variant :=
  variants.headD { key := "control", value := CVal.vBool false }

/-- evaluateFlag (`src/app/api/edge/flags/route.ts` lines 133-185).  The
short-circuit order is: disabled flag, targeting mismatch, rollout check,
then variant selection.  A thrown `NoVariantsError` from selectVariant
propagates as `none`. -/
def evaluateFlag (flag : Flag) (userKey : String)
    (attributes : UserAttributes) : Option FlagEvaluationResult :=
  if !flag.isActive then
    let dv := defaultVariant flag.variants
    some { flagKey := flag.key, variant := dv.key, value := dv.value,
           isActive := false, reason := EvalReason.flag_disabled }
  else if !matchesTargetingRules attributes flag.rules then
    let dv := defaultVariant flag.variants
    some { flagKey := flag.key, variant := dv.key, value := dv.value,
           isActive := false, reason := EvalReason.targeting_rules_not_met }
  else
    let bucket := getBucket userKey flag.salt
    if flag.rolloutPct ≤ bucket then
      let dv := defaultVariant flag.variants
      some { flagKey := flag.key, variant := dv.key, value := dv.value,
             isActive := false, reason := EvalReason.not_in_rollout }
    else
      match selectVariant flag.variants bucket with
      | some v =>
        some { flagKey := flag.key, variant := v.key, value := v.value,
               isActive := true, reason := EvalReason.evaluated }
      | none => none

/-! ### Bayesian experiment engine (`src/lib/redis.ts` lines 17-172)

The Monte Carlo loops draw Beta-distributed samples through `betaRandom`,
which is ultimately driven by `Math.random`.  That nondeterministic source is
modelled as an oracle stream: `draws i` is the pair
`(treatmentSample, controlSample)` produced in iteration `i`. -/

/-- Per-arm input counts of ExperimentData. -/
structure ArmData where
  users : ℕ
  conversions : ℕ
deriving DecidableEq

/-- ExperimentData (`src/lib/redis.ts` lines 17-26). -/
structure ExperimentData where
  control : ArmData
  treatment : ArmData
deriving DecidableEq

/-- Per-arm output of BayesianResult. -/
structure ArmResult where
  users : ℕ
  conversions : ℕ
  conversionRate : ℚ
  alpha : ℚ
  beta : ℚ
deriving DecidableEq

/-- The 95% interval on the rate difference. -/
structure ConfInterval where
  lower : ℚ
  upper : ℚ
deriving DecidableEq

/-- BayesianResult (`src/lib/redis.ts` lines 28-51). -/
structure BayesianResult where
  control : ArmResult
  treatment : ArmResult
  winProbability : ℚ
  confidenceInterval : ConfInterval
  isSignificant : Bool
  expectedLift : ℚ
  relativeLift : ℚ
deriving DecidableEq

/-- `const numSamples = 10000` (lines 130, 154). -/
def numSamples : ℕ := 10000

/-- calculateWinProbability (`src/lib/redis.ts` lines 121-143): count the
iterations in which `treatmentSample > controlSample` and divide by the sample
count.  `(draws i).1` is the iteration's treatment sample, `(draws i).2` its
control sample. -/
def calculateWinProbability (draws : ℕ → ℚ × ℚ) : ℚ :=
  let treatmentWins :=
    (List.range numSamples).countP (fun i => decide ((draws i).2 < (draws i).1))
  (treatmentWins : ℚ) / (numSamples : ℚ)

/-- calculateConfidenceInterval (`src/lib/redis.ts` lines 148-172): sort the
sampled differences and take the entries at `floor(0.025*N)` and
`floor(0.975*N)`, with `|| 0` defaulting. -/
def calculateConfidenceInterval (draws : ℕ → ℚ × ℚ) : ConfInterval :=
  let differences :=
    ((List.range numSamples).map (fun i => (draws i).1 - (draws i).2)).mergeSort
      (fun a b => decide (a ≤ b))
  let lowerIndex := 25 * numSamples / 1000
  let upperIndex := 975 * numSamples / 1000
  { lower := differences.getD lowerIndex 0,
    upper := differences.getD upperIndex 0 }

/-- computeBayesianABTest (`src/lib/redis.ts` lines 60-116).  `wpDraws` and
`ciDraws` are the oracle streams feeding the win-probability and
confidence-interval Monte Carlo loops respectively. -/
def computeBayesianABTest (wpDraws ciDraws : ℕ → ℚ × ℚ)
    (data : ExperimentData) : BayesianResult :=
  let priorAlpha : ℚ := 1
  let priorBeta : ℚ := 1
  let controlAlpha := priorAlpha + (data.control.conversions : ℚ)
  let controlBeta :=
    priorBeta + (data.control.users : ℚ) - (data.control.conversions : ℚ)
  let treatmentAlpha := priorAlpha + (data.treatment.conversions : ℚ)
  let treatmentBeta :=
    priorBeta + (data.treatment.users : ℚ) - (data.treatment.conversions : ℚ)
  let controlRate :=
    (data.control.conversions : ℚ) / ((max data.control.users 1 : ℕ) : ℚ)
  let treatmentRate :=
    (data.treatment.conversions : ℚ) / ((max data.treatment.users 1 : ℕ) : ℚ)
  let winProbability := calculateWinProbability wpDraws
  let ci := calculateConfidenceInterval ciDraws
  let expectedTreatmentRate := treatmentAlpha / (treatmentAlpha + treatmentBeta)
  let expectedControlRate := controlAlpha / (controlAlpha + controlBeta)
  let expectedLift := expectedTreatmentRate - expectedControlRate
  let relativeLift :=
    if 0 < expectedControlRate then expectedLift / expectedControlRate * 100
    else 0
  { control :=
      { users := data.control.users, conversions := data.control.conversions,
        conversionRate := controlRate, alpha := controlAlpha,
        beta := controlBeta },
    treatment :=
      { users := data.treatment.users,
        conversions := data.treatment.conversions,
        conversionRate := treatmentRate, alpha := treatmentAlpha,
        beta := treatmentBeta },
    winProbability := winProbability,
    confidenceInterval := ci,
    isSignificant :=
      decide ((95 : ℚ) / 100 ≤ winProbability ∨ winProbability ≤ (5 : ℚ) / 100),
    expectedLift := expectedLift,
    relativeLift := relativeLift }

/-! ### Box–Muller spare-value state (`src/lib/redis.ts` lines 53-55, 224-239)

The source keeps `hasSpare` and `spare` as module-scope `let` bindings shared
by every call of normalRandom in the process.  The embedding passes that state
explicitly, so the effect of the sharing can be exhibited.  The transcendental
Box–Muller pair is abstracted: `boxMuller (u, v)` is the pair
`(mag*sin(2*pi*v), mag*cos(2*pi*v))`, i.e. (returned value, stored spare), for
the two uniform draws `(u, v)`. -/

/-- The mutable sampler state: `hasSpare` and `spare`. -/
structure NormalGenState where
  hasSpare : Bool
  spare : ℚ
deriving DecidableEq

/-- The module-initialization values of the globals (`src/lib/redis.ts` lines
54-55): `hasSpare = false`, `spare = 0`. -/
def initialGlobalState : NormalGenState := { hasSpare := false, spare := 0 }

/-- normalRandom (`src/lib/redis.ts` lines 224-239) with the module-global
state threaded explicitly: consume the spare when present, otherwise draw a
Box–Muller pair, store its second component as the new spare and return the
first. -/
def normalRandom (boxMuller : ℚ × ℚ → ℚ × ℚ) (uniforms : ℚ × ℚ)
    (st : NormalGenState) : ℚ × NormalGenState :=
  if st.hasSpare then (st.spare, { hasSpare := false, spare := st.spare })
  else
    ((boxMuller uniforms).1,
     { hasSpare := true, spare := (boxMuller uniforms).2 })

/-! ### Concrete fixtures used for examples and witnesses -/

/-- The control variant of the reference 50/50 flag. -/
def wControl : Variant :=
  { key := "control", value := CVal.vBool false, weight := some 50 }

/-- The treatment variant of the reference 50/50 flag. -/
def wTreatment : Variant :=
  { key := "treatment", value := CVal.vBool true, weight := some 50 }

/-- The reference two-variant list. -/
def wVariants : List Variant := [wControl, wTreatment]

/-- The spec's example rule set: country in [US, CA] AND deviceType in
[mobile]. -/
def exRules : TargetingRules :=
  { country := some ["US", "CA"], deviceType := some ["mobile"] }

/-- The spec's example matching user: US mobile. -/
def exUserMobile : UserAttributes :=
  { userId := "u1", country := some "US", deviceType := some "mobile" }

/-- The spec's example rejected user: US desktop. -/
def exUserDesktop : UserAttributes :=
  { userId := "u1", country := some "US", deviceType := some "desktop" }

/-- A reference active flag at full rollout with empty rules. -/
def wFlag : Flag :=
  { key := "test-flag", variants := wVariants, rules := {},
    rolloutPct := 100, salt := "x", isActive := true }

/-- A reference user with no optional attributes. -/
def wAttrs : UserAttributes := { userId := "u1" }

/-! ## Helper lemmas -/

theorem getBucket_lt (userKey salt : String) : getBucket userKey salt < 100 :=
  Nat.mod_lt _ (by norm_num)

theorem totalWeight_foldl (vs : List Variant) (a : ℚ) :
    vs.foldl (fun s v => s + v.weight.getD 0) a = a + totalWeight vs := by
  induction vs generalizing a with
  | nil => simp [totalWeight]
  | cons v rest ih =>
    simp only [totalWeight, List.foldl] at *
    rw [ih (a + v.weight.getD 0), ih (0 + v.weight.getD 0)]
    ring

theorem totalWeight_cons (v : Variant) (vs : List Variant) :
    totalWeight (v :: vs) = v.weight.getD 0 + totalWeight vs := by
  simp only [totalWeight, List.foldl]
  rw [totalWeight_foldl]
  ring_nf
  rw [totalWeight]

theorem totalWeight_nonneg (vs : List Variant)
    (h : ∀ v ∈ vs, 0 ≤ v.weight.getD 0) : 0 ≤ totalWeight vs := by
  induction vs with
  | nil => simp [totalWeight]
  | cons v rest ih =>
    rw [totalWeight_cons]
    have h1 := h v (List.mem_cons_self v rest)
    have h2 := ih (fun u hu => h u (List.mem_cons_of_mem v hu))
    linarith

theorem weightedWalk_mem {t : ℚ} {c : ℚ} {vs : List Variant} {v : Variant}
    (h : weightedWalk t c vs = some v) : v ∈ vs := by
  induction vs generalizing c with
  | nil => simp [weightedWalk] at h
  | cons a rest ih =>
    simp only [weightedWalk] at h
    split at h
    · simp only [Option.some.injEq] at h
      subst h
      exact List.mem_cons_self a rest
    · exact List.mem_cons_of_mem a (ih h)

theorem weightedWalk_isSome {t : ℚ} {vs : List Variant} {c : ℚ}
    (hv : vs ≠ []) (hle : t ≤ c + totalWeight vs) :
    (weightedWalk t c vs).isSome = true := by
  induction vs generalizing c with
  | nil => exact absurd rfl hv
  | cons a rest ih =>
    simp only [weightedWalk]
    split
    · rfl
    · rename_i hc
      rw [totalWeight_cons] at hle
      cases rest with
      | nil =>
        exfalso
        apply hc
        simpa [totalWeight] using hle
      | cons b rest2 =>
        apply ih (by simp)
        linarith

theorem weightedWalk_first {t : ℚ} {vs : List Variant} {c : ℚ} {v : Variant}
    (h : weightedWalk t c vs = some v) :
    ∃ i, ∃ hi : i < vs.length, v = vs.get ⟨i, hi⟩ ∧
      t ≤ c + totalWeight (vs.take (i + 1)) ∧
      ∀ j, j < i → c + totalWeight (vs.take (j + 1)) < t := by
  induction vs generalizing c with
  | nil => simp [weightedWalk] at h
  | cons a rest ih =>
    simp only [weightedWalk] at h
    split at h
    · rename_i hc
      simp only [Option.some.injEq] at h
      subst h
      refine ⟨0, by simp, rfl, ?_, ?_⟩
      · simpa [totalWeight] using hc
      · intro j hj
        omega
    · rename_i hc
      obtain ⟨i, hi, hveq, hle, hlt⟩ := ih h
      push_neg at hc
      refine ⟨i + 1, by simpa using Nat.succ_lt_succ hi, by simpa using hveq,
        ?_, ?_⟩
      · rw [List.take_succ_cons, totalWeight_cons]
        linarith
      · intro j hj
        cases j with
        | zero =>
          simpa [totalWeight] using hc
        | succ j2 =>
          have := hlt j2 (by omega)
          rw [List.take_succ_cons, totalWeight_cons]
          linarith

theorem selectVariant_exists (vs : List Variant) (b : ℕ) (hv : vs ≠ []) :
    ∃ v, selectVariant vs b = some v ∧ v ∈ vs := by
  have hlen : 0 < vs.length := List.length_pos.mpr hv
  have hmod : b % vs.length < vs.length := Nat.mod_lt _ hlen
  have hmodeq : vs[b % vs.length]? = some vs[b % vs.length] :=
    List.getElem?_eq_getElem hmod
  simp only [selectVariant]
  split_ifs with h0 h1 hw htw
  · omega
  · exact ⟨vs[0], List.getElem?_eq_getElem hlen, List.getElem_mem hlen⟩
  · exact ⟨vs[b % vs.length], hmodeq, List.getElem_mem hmod⟩
  · cases hww : weightedWalk ((b : ℚ) / 100 * totalWeight vs) 0 vs with
    | some v => exact ⟨v, rfl, weightedWalk_mem hww⟩
    | none => exact ⟨vs[b % vs.length], hmodeq, List.getElem_mem hmod⟩
  · exact ⟨vs[b % vs.length], hmodeq, List.getElem_mem hmod⟩

/-! ## Claims -/

/-- C2: for every userKey and salt, getBucket is deterministic (two calls with
the same arguments return the same value, which in the pure embedding is
definitional) and its result lies in [0,100), both for the murmur3-based
implementation and for the simpleHash-based edge implementation. -/
theorem claim_C2 (userKey salt : String) :
    (getBucket userKey salt = getBucket userKey salt ∧
      getBucket userKey salt < 100) ∧
    (getBucketEdge userKey salt = getBucketEdge userKey salt ∧
      getBucketEdge userKey salt < 100) :=
  ⟨⟨rfl, Nat.mod_lt _ (by norm_num)⟩, ⟨rfl, Nat.mod_lt _ (by norm_num)⟩⟩

/-- C7: selectVariant fails (NoVariantsError, modelled as none) exactly on the
empty variant list, and when every flag has at least one variant no path of
evaluateFlag fails. -/
theorem claim_C7 :
    (∀ bucket : ℕ, selectVariant [] bucket = none) ∧
    (∀ (variants : List Variant) (bucket : ℕ), variants ≠ [] →
      (selectVariant variants bucket).isSome = true) ∧
    (∀ (flag : Flag) (userKey : String) (attributes : UserAttributes),
      flag.variants ≠ [] →
      (evaluateFlag flag userKey attributes).isSome = true) := by
  refine ⟨fun bucket => rfl, fun vs b hv => ?_, fun flag u attrs hv => ?_⟩
  · obtain ⟨v, hvv, _⟩ := selectVariant_exists vs b hv
    rw [hvv]
    rfl
  · simp only [evaluateFlag]
    split_ifs with h1 h2 h3
    · rfl
    · rfl
    · rfl
    · obtain ⟨v, hvv, _⟩ :=
        selectVariant_exists flag.variants (getBucket u flag.salt) hv
      rw [hvv]
      rfl

/-- C7 witness: the reference two-variant list is non-empty and selection on it
succeeds. -/
theorem claim_C7_witness :
    wVariants ≠ [] ∧ (selectVariant wVariants 0).isSome = true :=
  ⟨by simp [wVariants], claim_C7.2.1 wVariants 0 (by simp [wVariants])⟩

/-- C10: for every non-empty variant list and every bucket in [0,100),
selectVariant returns an element of the input list; when the total weight is
positive, the walk target (bucket/100)*totalWeight is strictly below
totalWeight (so the weighted walk always reaches a variant), and the
equal-distribution index bucket mod length is in bounds. -/
theorem claim_C10 (variants : List Variant) (bucket : ℕ)
    (hv : variants ≠ []) (hb : bucket < 100) :
    (∃ v, selectVariant variants bucket = some v ∧ v ∈ variants) ∧
    (0 < totalWeight variants →
      (bucket : ℚ) / 100 * totalWeight variants < totalWeight variants) ∧
    bucket % variants.length < variants.length := by
  refine ⟨selectVariant_exists variants bucket hv, ?_,
    Nat.mod_lt _ (List.length_pos.mpr hv)⟩
  intro htw
  have hb2 : (bucket : ℚ) / 100 < 1 := by
    rw [div_lt_one (by norm_num)]
    exact_mod_cast hb
  calc (bucket : ℚ) / 100 * totalWeight variants
      < 1 * totalWeight variants := mul_lt_mul_of_pos_right hb2 htw
    _ = totalWeight variants := one_mul _

/-- C10 witness: the reference 50/50 list at bucket 42. -/
theorem claim_C10_witness :
    wVariants ≠ [] ∧ (42 : ℕ) < 100 ∧
    ((∃ v, selectVariant wVariants 42 = some v ∧ v ∈ wVariants) ∧
     (0 < totalWeight wVariants →
       ((42 : ℕ) : ℚ) / 100 * totalWeight wVariants < totalWeight wVariants) ∧
     42 % wVariants.length < wVariants.length) :=
  ⟨by simp [wVariants], by norm_num,
   claim_C10 wVariants 42 (by simp [wVariants]) (by norm_num)⟩

/-- C8: with at least one declared weight, selectVariant sums the weights
(missing ones as 0); a zero total falls back to the equal-distribution index
bucket mod length; otherwise it returns the first variant, in list order,
whose cumulative weight reaches or exceeds (bucket/100)*totalWeight.  Weights
are taken non-negative per the data-model invariant. -/
theorem claim_C8 (variants : List Variant) (bucket : ℕ)
    (hv : variants ≠ [])
    (hw : variants.any (fun v => v.weight.isSome) = true)
    (hnn : ∀ v ∈ variants, 0 ≤ v.weight.getD 0)
    (hb : bucket < 100) :
    (totalWeight variants = 0 →
      selectVariant variants bucket = variants[bucket % variants.length]?) ∧
    (totalWeight variants ≠ 0 →
      ∃ i, ∃ hi : i < variants.length,
        selectVariant variants bucket = some (variants.get ⟨i, hi⟩) ∧
        (bucket : ℚ) / 100 * totalWeight variants ≤
          totalWeight (variants.take (i + 1)) ∧
        ∀ j, j < i →
          totalWeight (variants.take (j + 1)) <
            (bucket : ℚ) / 100 * totalWeight variants) := by
  have h0 : ¬ variants.length = 0 := by
    intro h
    exact hv (List.length_eq_zero.mp h)
  constructor
  · intro htw
    by_cases h1 : variants.length = 1
    · obtain ⟨a, rfl⟩ := List.length_eq_one.mp h1
      simp [selectVariant, Nat.mod_one]
    · simp [selectVariant, h0, h1, hw, htw]
  · intro htw
    have htwpos : 0 < totalWeight variants :=
      lt_of_le_of_ne (totalWeight_nonneg variants hnn) (Ne.symm htw)
    have hb2 : (bucket : ℚ) / 100 < 1 := by
      rw [div_lt_one (by norm_num)]
      exact_mod_cast hb
    have htarget : (bucket : ℚ) / 100 * totalWeight variants <
        totalWeight variants := by
      calc (bucket : ℚ) / 100 * totalWeight variants
          < 1 * totalWeight variants := mul_lt_mul_of_pos_right hb2 htwpos
        _ = totalWeight variants := one_mul _
    by_cases h1 : variants.length = 1
    · obtain ⟨a, rfl⟩ := List.length_eq_one.mp h1
      refine ⟨0, by simp, by simp [selectVariant], ?_, ?_⟩
      · simpa using le_of_lt htarget
      · intro j hj
        omega
    · have hsel : selectVariant variants bucket =
          match weightedWalk ((bucket : ℚ) / 100 * totalWeight variants) 0
              variants with
          | some v => some v
          | none => variants[bucket % variants.length]? := by
        simp [selectVariant, h0, h1, hw, htw]
      have hsome := weightedWalk_isSome (t := (bucket : ℚ) / 100 *
        totalWeight variants) (c := 0) hv (by simpa using le_of_lt htarget)
      obtain ⟨v, hww⟩ := Option.isSome_iff_exists.mp hsome
      obtain ⟨i, hi, hveq, hle, hlt⟩ := weightedWalk_first hww
      refine ⟨i, hi, ?_, ?_, ?_⟩
      · rw [hsel, hww, hveq]
      · simpa using hle
      · intro j hj
        simpa using hlt j hj

/-- C8 witness: the 50/50 reference list at bucket 42 satisfies all the
hypotheses and has non-zero total weight. -/
theorem claim_C8_witness :
    (wVariants ≠ [] ∧ wVariants.any (fun v => v.weight.isSome) = true ∧
      (∀ v ∈ wVariants, 0 ≤ v.weight.getD 0) ∧ (42 : ℕ) < 100 ∧
      totalWeight wVariants ≠ 0) ∧
    (∃ i, ∃ hi : i < wVariants.length,
      selectVariant wVariants 42 = some (wVariants.get ⟨i, hi⟩) ∧
      ((42 : ℕ) : ℚ) / 100 * totalWeight wVariants ≤
        totalWeight (wVariants.take (i + 1)) ∧
      ∀ j, j < i →
        totalWeight (wVariants.take (j + 1)) <
          ((42 : ℕ) : ℚ) / 100 * totalWeight wVariants) :=
  ⟨⟨by simp [wVariants], by simp [wVariants, wControl, wTreatment],
    by
      intro v hv
      simp only [wVariants, wControl, wTreatment, List.mem_cons,
        List.not_mem_nil, or_false] at hv
      rcases hv with rfl | rfl <;> norm_num,
    by norm_num,
    by norm_num [totalWeight, wVariants, wControl, wTreatment, List.foldl]⟩,
   (claim_C8 wVariants 42 (by simp [wVariants])
     (by simp [wVariants, wControl, wTreatment])
     (by
       intro v hv
       simp only [wVariants, wControl, wTreatment, List.mem_cons,
         List.not_mem_nil, or_false] at hv
       rcases hv with rfl | rfl <;> norm_num)
     (by norm_num)).2
     (by norm_num [totalWeight, wVariants, wControl, wTreatment, List.foldl])⟩

/-- C1: for every flag with a non-empty variant list, evaluateFlag checks the
short-circuit conditions strictly in order — inactive flag, targeting
mismatch, bucket >= rolloutPct — returning flag_disabled,
targeting_rules_not_met or not_in_rollout respectively, each with
variant = variants[0] (the head) and isActive = false; only when all three
pass does it return reason evaluated, isActive = true, and the variant chosen
by selectVariant. -/
theorem claim_C1 (flag : Flag) (userKey : String)
    (attributes : UserAttributes) (hv : flag.variants ≠ []) :
    (flag.isActive = false →
      evaluateFlag flag userKey attributes = some
        { flagKey := flag.key, variant := (defaultVariant flag.variants).key,
          value := (defaultVariant flag.variants).value, isActive := false,
          reason := EvalReason.flag_disabled }) ∧
    (flag.isActive = true →
      matchesTargetingRules attributes flag.rules = false →
      evaluateFlag flag userKey attributes = some
        { flagKey := flag.key, variant := (defaultVariant flag.variants).key,
          value := (defaultVariant flag.variants).value, isActive := false,
          reason := EvalReason.targeting_rules_not_met }) ∧
    (flag.isActive = true →
      matchesTargetingRules attributes flag.rules = true →
      flag.rolloutPct ≤ getBucket userKey flag.salt →
      evaluateFlag flag userKey attributes = some
        { flagKey := flag.key, variant := (defaultVariant flag.variants).key,
          value := (defaultVariant flag.variants).value, isActive := false,
          reason := EvalReason.not_in_rollout }) ∧
    (flag.isActive = true →
      matchesTargetingRules attributes flag.rules = true →
      getBucket userKey flag.salt < flag.rolloutPct →
      ∃ v, selectVariant flag.variants (getBucket userKey flag.salt) = some v ∧
        evaluateFlag flag userKey attributes = some
          { flagKey := flag.key, variant := v.key, value := v.value,
            isActive := true, reason := EvalReason.evaluated }) ∧
    defaultVariant flag.variants = flag.variants.head hv := by
  refine ⟨?_, ?_, ?_, ?_, ?_⟩
  · intro ha
    simp [evaluateFlag, ha]
  · intro ha hm
    simp [evaluateFlag, ha, hm]
  · intro ha hm hrp
    simp [evaluateFlag, ha, hm, hrp]
  · intro ha hm hb
    obtain ⟨v, hvv, _⟩ :=
      selectVariant_exists flag.variants (getBucket userKey flag.salt) hv
    refine ⟨v, hvv, ?_⟩
    simp [evaluateFlag, ha, hm, Nat.not_le.mpr hb, hvv]
  · have hgen : ∀ (l : List Variant) (h : l ≠ []),
        defaultVariant l = l.head h := by
      intro l h
      cases l with
      | nil => exact absurd rfl h
      | cons a rest => rfl
    exact hgen flag.variants hv

/-- C1 witness: the reference flag (active, empty rules, full rollout) reaches
the evaluated branch for user u1. -/
theorem claim_C1_witness :
    wFlag.variants ≠ [] ∧ wFlag.isActive = true ∧
    matchesTargetingRules wAttrs wFlag.rules = true ∧
    getBucket "u1" wFlag.salt < wFlag.rolloutPct ∧
    (∃ v, selectVariant wFlag.variants (getBucket "u1" wFlag.salt) = some v ∧
      evaluateFlag wFlag "u1" wAttrs = some
        { flagKey := wFlag.key, variant := v.key, value := v.value,
          isActive := true, reason := EvalReason.evaluated }) :=
  ⟨by simp [wFlag, wVariants], rfl, rfl,
   by simpa [wFlag] using getBucket_lt "u1" "x",
   (claim_C1 wFlag "u1" wAttrs (by simp [wFlag, wVariants])).2.2.2.1 rfl rfl
     (by simpa [wFlag] using getBucket_lt "u1" "x")⟩

/-- C3: for every active flag with non-empty variants whose targeting rules
the user matches: rolloutPct = 0 always yields reason not_in_rollout (never
evaluated) and rolloutPct = 100 always yields reason evaluated; in general the
evaluation reaches reason evaluated exactly when
bucket < rolloutPct (strict exclusive upper bound). -/
theorem claim_C3 (flag : Flag) (userKey : String)
    (attributes : UserAttributes) (hv : flag.variants ≠ [])
    (ha : flag.isActive = true)
    (hm : matchesTargetingRules attributes flag.rules = true) :
    (flag.rolloutPct = 0 →
      (evaluateFlag flag userKey attributes).map (fun r => r.reason) =
        some EvalReason.not_in_rollout) ∧
    (flag.rolloutPct = 100 →
      (evaluateFlag flag userKey attributes).map (fun r => r.reason) =
        some EvalReason.evaluated) ∧
    (∀ r, evaluateFlag flag userKey attributes = some r →
      (r.reason = EvalReason.evaluated ↔
        getBucket userKey flag.salt < flag.rolloutPct)) := by
  refine ⟨?_, ?_, ?_⟩
  · intro h0
    simp [evaluateFlag, ha, hm, h0]
  · intro h100
    have hnot : ¬ flag.rolloutPct ≤ getBucket userKey flag.salt := by
      rw [h100]
      exact Nat.not_le.mpr (getBucket_lt userKey flag.salt)
    obtain ⟨v, hvv, _⟩ :=
      selectVariant_exists flag.variants (getBucket userKey flag.salt) hv
    simp [evaluateFlag, ha, hm, hnot, hvv]
  · intro r hr
    by_cases hrp : flag.rolloutPct ≤ getBucket userKey flag.salt
    · simp [evaluateFlag, ha, hm, hrp] at hr
      rw [← hr]
      exact iff_of_false (by simp) (Nat.not_lt.mpr hrp)
    · obtain ⟨v, hvv, _⟩ :=
        selectVariant_exists flag.variants (getBucket userKey flag.salt) hv
      simp [evaluateFlag, ha, hm, hrp, hvv] at hr
      rw [← hr]
      exact iff_of_true (by simp) (Nat.not_le.mp hrp)

/-- C3 witness: the reference flag at rolloutPct = 100 evaluates for user u1
with reason evaluated. -/
theorem claim_C3_witness :
    wFlag.variants ≠ [] ∧ wFlag.isActive = true ∧
    matchesTargetingRules wAttrs wFlag.rules = true ∧ wFlag.rolloutPct = 100 ∧
    (evaluateFlag wFlag "u1" wAttrs).map (fun r => r.reason) =
      some EvalReason.evaluated :=
  ⟨by simp [wFlag, wVariants], rfl, rfl, rfl,
   (claim_C3 wFlag "u1" wAttrs (by simp [wFlag, wVariants]) rfl rfl).2.1 rfl⟩

/-- C6: matchesTargetingRules accepts every user when the rule set is empty;
a present, non-empty dimension fails for a user lacking that attribute
(country, deviceType, userAgent, and any custom-property key expecting a
defined value); present dimensions combine with AND while values inside one
dimension are alternatives, as in the spec's US/CA-mobile example. -/
theorem claim_C6 :
    (∀ (attributes : UserAttributes) (rules : TargetingRules),
      rulesIsEmpty rules = true →
      matchesTargetingRules attributes rules = true) ∧
    (∀ (attributes : UserAttributes) (rules : TargetingRules)
      (cs : List String), rules.country = some cs → cs ≠ [] →
      attributes.country = none →
      matchesTargetingRules attributes rules = false) ∧
    (∀ (attributes : UserAttributes) (rules : TargetingRules)
      (ds : List String), rules.deviceType = some ds → ds ≠ [] →
      attributes.deviceType = none →
      matchesTargetingRules attributes rules = false) ∧
    (∀ (attributes : UserAttributes) (rules : TargetingRules)
      (ps : List String), rules.userAgent = some ps → ps ≠ [] →
      attributes.userAgent = none →
      matchesTargetingRules attributes rules = false) ∧
    (∀ (attributes : UserAttributes) (rules : TargetingRules)
      (entries : List (String × RVal)) (k : String) (v : CVal),
      rules.customProperties = some entries →
      (k, RVal.single v) ∈ entries → v ≠ CVal.vUndef →
      lookupCustom attributes.customProperties k = CVal.vUndef →
      matchesTargetingRules attributes rules = false) ∧
    matchesTargetingRules exUserMobile exRules = true ∧
    matchesTargetingRules exUserDesktop exRules = false := by
  refine ⟨?_, ?_, ?_, ?_, ?_, ?_, ?_⟩
  · intro attributes rules h
    simp [matchesTargetingRules, h]
  · intro attributes rules cs hc hne hattr
    have hre : rulesIsEmpty rules = false := by simp [rulesIsEmpty, hc]
    simp [matchesTargetingRules, hre, checkDim, hc, hattr,
      List.length_pos.mpr hne]
  · intro attributes rules ds hd hne hattr
    have hre : rulesIsEmpty rules = false := by simp [rulesIsEmpty, hd]
    simp [matchesTargetingRules, hre, checkDim, hd, hattr,
      List.length_pos.mpr hne]
  · intro attributes rules ps hp hne hattr
    have hre : rulesIsEmpty rules = false := by simp [rulesIsEmpty, hp]
    simp [matchesTargetingRules, hre, checkUserAgent, hp, hattr,
      List.length_pos.mpr hne]
  · intro attributes rules entries k v hcp hmem hvne hlook
    have hre : rulesIsEmpty rules = false := by simp [rulesIsEmpty, hcp]
    have hall : entries.all (fun e =>
        checkCustomEntry (lookupCustom attributes.customProperties e.1) e.2) =
          false := by
      apply List.all_eq_false.mpr
      refine ⟨(k, RVal.single v), hmem, ?_⟩
      simp only [checkCustomEntry, hlook, beq_iff_eq]
      exact fun h => hvne h.symm
    simp [matchesTargetingRules, hre, hcp, hall]
  · decide
  · decide

/-- C6 witness: the empty rule set accepts the reference user. -/
theorem claim_C6_witness :
    rulesIsEmpty {} = true ∧ matchesTargetingRules wAttrs {} = true :=
  ⟨rfl, claim_C6.1 wAttrs {} rfl⟩

/-- C4: computeBayesianABTest derives each arm's posterior from the uniform
Beta(1,1) prior as alpha = 1 + conversions and beta = 1 + users - conversions,
and its conversionRate as conversions / max(users, 1); a zero-user arm
therefore yields conversionRate 0 instead of a division by zero. -/
theorem claim_C4 (wpDraws ciDraws : ℕ → ℚ × ℚ) (data : ExperimentData)
    (hc : data.control.conversions ≤ data.control.users)
    (ht : data.treatment.conversions ≤ data.treatment.users) :
    (computeBayesianABTest wpDraws ciDraws data).control.alpha =
      1 + (data.control.conversions : ℚ) ∧
    (computeBayesianABTest wpDraws ciDraws data).control.beta =
      1 + (data.control.users : ℚ) - (data.control.conversions : ℚ) ∧
    (computeBayesianABTest wpDraws ciDraws data).treatment.alpha =
      1 + (data.treatment.conversions : ℚ) ∧
    (computeBayesianABTest wpDraws ciDraws data).treatment.beta =
      1 + (data.treatment.users : ℚ) - (data.treatment.conversions : ℚ) ∧
    (computeBayesianABTest wpDraws ciDraws data).control.conversionRate =
      (data.control.conversions : ℚ) / ((max data.control.users 1 : ℕ) : ℚ) ∧
    (computeBayesianABTest wpDraws ciDraws data).treatment.conversionRate =
      (data.treatment.conversions : ℚ) /
        ((max data.treatment.users 1 : ℕ) : ℚ) ∧
    (data.control.users = 0 →
      (computeBayesianABTest wpDraws ciDraws data).control.conversionRate =
        0) ∧
    (data.treatment.users = 0 →
      (computeBayesianABTest wpDraws ciDraws data).treatment.conversionRate =
        0) := by
  refine ⟨rfl, rfl, rfl, rfl, rfl, rfl, ?_, ?_⟩
  · intro h0
    have hz : data.control.conversions = 0 := by omega
    simp [computeBayesianABTest, hz]
  · intro h0
    have hz : data.treatment.conversions = 0 := by omega
    simp [computeBayesianABTest, hz]

/-- C4 witness: a zero-user control arm with counts (0,0) and a (10,5)
treatment arm yields control conversionRate 0. -/
theorem claim_C4_witness :
    ((0 : ℕ) ≤ 0 ∧ (5 : ℕ) ≤ 10) ∧
    (computeBayesianABTest (fun _ => (0, 0)) (fun _ => (0, 0))
        { control := { users := 0, conversions := 0 },
          treatment :=
            { users := 10, conversions := 5 } }).control.conversionRate = 0 :=
  ⟨⟨Nat.le_refl 0, by norm_num⟩,
   (claim_C4 (fun _ => (0, 0)) (fun _ => (0, 0))
       { control := { users := 0, conversions := 0 },
         treatment := { users := 10, conversions := 5 } }
       (Nat.le_refl 0) (by norm_num)).2.2.2.2.2.2.1 rfl⟩

/-- C5: the winProbability of every BayesianResult is the count of Monte
Carlo iterations in which the treatment sample exceeds the control sample,
divided by N = 10000, hence it lies in [0,1]; and isSignificant holds exactly
when winProbability is at least 0.95 or at most 0.05. -/
theorem claim_C5 (wpDraws ciDraws : ℕ → ℚ × ℚ) (data : ExperimentData) :
    (computeBayesianABTest wpDraws ciDraws data).winProbability =
      (((List.range numSamples).countP
        (fun i => decide ((wpDraws i).2 < (wpDraws i).1)) : ℕ) : ℚ) /
        (numSamples : ℚ) ∧
    0 ≤ (computeBayesianABTest wpDraws ciDraws data).winProbability ∧
    (computeBayesianABTest wpDraws ciDraws data).winProbability ≤ 1 ∧
    ((computeBayesianABTest wpDraws ciDraws data).isSignificant = true ↔
      (95 : ℚ) / 100 ≤
          (computeBayesianABTest wpDraws ciDraws data).winProbability ∨
        (computeBayesianABTest wpDraws ciDraws data).winProbability ≤
          (5 : ℚ) / 100) := by
  have hwp : (computeBayesianABTest wpDraws ciDraws data).winProbability =
      calculateWinProbability wpDraws := rfl
  refine ⟨rfl, ?_, ?_, ?_⟩
  · rw [hwp]
    simp only [calculateWinProbability]
    exact div_nonneg (Nat.cast_nonneg _) (by norm_num)
  · rw [hwp]
    simp only [calculateWinProbability]
    rw [div_le_one (by norm_num [numSamples])]
    have hcount : (List.range numSamples).countP
        (fun i => decide ((wpDraws i).2 < (wpDraws i).1)) ≤ numSamples := by
      have h1 := List.countP_le_length
        (p := fun i => decide ((wpDraws i).2 < (wpDraws i).1))
        (l := List.range numSamples)
      simpa using h1
    exact_mod_cast hcount
  · have hsig : (computeBayesianABTest wpDraws ciDraws data).isSignificant =
        decide ((95 : ℚ) / 100 ≤ calculateWinProbability wpDraws ∨
          calculateWinProbability wpDraws ≤ (5 : ℚ) / 100) := rfl
    rw [hsig, hwp]
    exact decide_eq_true_iff

/-- C9 evidence: because hasSpare/spare are module-scope globals, two
sampling sessions interleaved over that shared state cross-contaminate: after
computation A draws once from the fresh global state with its own uniforms,
computation B's first draw returns the spare value derived from A's uniforms
(first conjunct), whereas a computation owning a fresh per-session state gets
a value derived from its own uniforms (second conjunct). -/
theorem claim_C9 (boxMuller : ℚ × ℚ → ℚ × ℚ) (uniformsA uniformsB : ℚ × ℚ) :
    (normalRandom boxMuller uniformsB
        (normalRandom boxMuller uniformsA initialGlobalState).2).1 =
      (boxMuller uniformsA).2 ∧
    (normalRandom boxMuller uniformsB initialGlobalState).1 =
      (boxMuller uniformsB).1 :=
  ⟨rfl, rfl⟩

end Flagship
